import Mathlib

/-!
Shallow embedding of the photo-gallery maintenance scripts `add_image.py`
and `update.py`.

Both scripts edit the declaration `const images = [ ... ];` inside an HTML
document using the Python regular expression
`(const\s+images\s*=\s*\[)(.*?)(\];)` compiled with `re.DOTALL`, applied
via `re.search` (leftmost match) and `re.sub` (every non-overlapping
match, scanning left to right).  Documents are modelled as lists of
characters, and whitespace by the ASCII whitespace characters, which is
exact on the documents of interest.

The scripts build the substitution replacement by string interpolation,
`\1` + new array content + `\3`, so the computed body passes through the
escape processing of Python replacement templates: a backslash in the
body starts an escape (`\2` expands to the occurrence's captured body,
octal escapes become characters, an unknown ASCII-letter escape raises
`re.error`), and a body beginning with a digit merges with the leading
`\1` into a multi-digit group reference (`re.error` for this three-group
pattern) or a three-octal-digit character escape.  `parseTemplateF` below
models CPython's `re._parser.parse_template` for this pattern, with
`re.error` modelled as `none`; two documented simplifications restrict
`\g<...>` group names to ASCII (the identifier test and the `int`
parsing), which no input appearing in the claims reaches.
-/

/-- ASCII whitespace, as matched by the whitespace class of the scripts'
regular expression and stripped by Python `str.strip` on the documents
considered here. -/
def isWs (c : Char) : Bool :=
  c == ' ' || c == '\t' || c == '\n' || c == '\r' || c == '\x0b' || c == '\x0c'

/-- Python `str.strip`: remove whitespace from both ends of a string. -/
def stripWs (s : List Char) : List Char :=
  ((s.dropWhile isWs).reverse.dropWhile isWs).reverse

/-- Consume an expected literal prefix, returning the remainder. -/
def dropLit : List Char → List Char → Option (List Char)
  | [], s => some s
  | _ :: _, [] => none
  | l :: ls, c :: cs => if c = l then dropLit ls cs else none

/-- Match the capture group `(const\s+images\s*=\s*\[)` at the head of
`s`, returning the matched text and the remainder.  In the scripts'
pattern every whitespace class is followed by a non-whitespace literal, so
the greedy classes can only match the maximal whitespace runs and the
group's match at a given position is unique. -/
def matchOpener (s : List Char) : Option (List Char × List Char) :=
  match dropLit "const".data s with
  | none => none
  | some r1 =>
    if r1.takeWhile isWs = [] then none
    else
      match dropLit "images".data (r1.dropWhile isWs) with
      | none => none
      | some r2 =>
        match dropLit ['='] (r2.dropWhile isWs) with
        | none => none
        | some r3 =>
          match dropLit ['['] (r3.dropWhile isWs) with
          | none => none
          | some r4 =>
            some ("const".data ++ r1.takeWhile isWs ++ "images".data ++ r2.takeWhile isWs
                  ++ '=' :: (r3.takeWhile isWs ++ ['[']), r4)

/-- Split `s` at the first occurrence of the two-character sequence `];`,
the match of the lazy tail `(.*?)(\];)` of the scripts' pattern: the text
before the occurrence and the text after it. -/
def splitAtClose : List Char → Option (List Char × List Char)
  | [] => none
  | c :: rest =>
    if c = ']' ∧ rest.head? = some ';' then some ([], rest.tail)
    else (splitAtClose rest).map fun p => (c :: p.1, p.2)

/-- Whether the two-character sequence `a b` occurs in a string. -/
def hasPair (a b : Char) : List Char → Bool
  | [] => false
  | c :: rest => if c = a ∧ rest.head? = some b then true else hasPair a b rest

/-- Python `re.search` for the scripts' pattern: try each start position
from the left; at a position the pattern matches when the opener group
matches there and a `];` follows.  Returns the text before the match, the
first capture group, the lazily captured body, and the text after the
closing `];`. -/
def reSearch : List Char → Option (List Char × List Char × List Char × List Char)
  | [] => none
  | c :: rest =>
    match matchOpener (c :: rest) with
    | some (g1, r) =>
      match splitAtClose r with
      | some p => some ([], g1, p.1, p.2)
      | none => (reSearch rest).map fun q => (c :: q.1, q.2)
    | none => (reSearch rest).map fun q => (c :: q.1, q.2)

/-- One piece of a parsed substitution template: a literal character or a
group reference. -/
inductive Chunk where
  | lit (c : Char)
  | grp (n : Nat)
deriving DecidableEq

/-- Split a group name at the first `>` (the template scanner's
read-until, used for `\g<...>` references): the name and the text after
the `>`; `none` when no `>` follows (an unterminated name). -/
def splitAtGt : List Char → Option (List Char × List Char)
  | [] => none
  | '>' :: rest => some ([], rest)
  | c :: rest => (splitAtGt rest).map fun p => (c :: p.1, p.2)

/-- Identifier test for `\g<...>` group names, restricted to ASCII
(Python uses the Unicode `str.isidentifier`; the scripts' pattern has no
named groups, so an identifier name always fails the lookup). -/
def isIdent (l : List Char) : Bool :=
  match l with
  | [] => false
  | c :: rest => (c.isAlpha || c == '_') && rest.all (fun d => d.isAlphanum || d == '_')

/-- Numeric value of a decimal digit character. -/
def digitVal (c : Char) : Nat := c.toNat - '0'.toNat

/-- Octal digit test. -/
def isOctCh (c : Char) : Bool := '0' ≤ c && c ≤ '7'

/-- Decimal digits with single interior underscores, as accepted by
Python's `int`; the accumulator carries the value read so far. -/
def parsePyNatCore : Nat → List Char → Option Nat
  | acc, [] => some acc
  | acc, c :: rest =>
    if c.isDigit then parsePyNatCore (10 * acc + digitVal c) rest
    else if c = '_' then
      match rest with
      | d :: rest2 => if d.isDigit then parsePyNatCore (10 * acc + digitVal d) rest2 else none
      | [] => none
    else none

/-- Python `int(name)` for a `\g<...>` group index: optional surrounding
whitespace (modelled as ASCII), an optional sign (a negative index is an
error), and digits with single interior underscores. -/
def parsePyIndex (name : List Char) : Option Nat :=
  match stripWs name with
  | '+' :: d :: rest => if d.isDigit then parsePyNatCore (digitVal d) rest else none
  | '-' :: _ => none
  | d :: rest => if d.isDigit then parsePyNatCore (digitVal d) rest else none
  | [] => none

/-- Fuelled model of CPython `re._parser.parse_template`, specialised to
the scripts' pattern, which has three groups and no named groups.  The
template is scanned left to right; a backslash starts an escape:
`\g<...>` is a group reference by name or index, `\0` an octal escape of
up to two more octal digits, `\1`..`\9` a group reference that merges
with following digits — two digits of group index, or a character escape
when all three digits are octal — the known letter escapes (`\a` `\b`
`\f` `\n` `\r` `\t` `\v` `\\`) become characters, an unknown ASCII-letter
escape is an error, and any other escaped character stays as the two
literal characters.  `re.error` is modelled as `none`.  Every step
consumes at least one character, so any fuel exceeding the template's
length gives the function's fixed meaning. -/
def parseTemplateF : Nat → List Char → Option (List Chunk)
  | 0, _ => none
  | _ + 1, [] => some []
  | f + 1, c :: tail =>
    if c = '\\' then
      match tail with
      | [] => none
      | e :: etail =>
        if e = 'g' then
          match etail with
          | '<' :: ntail =>
            match splitAtGt ntail with
            | none => none
            | some (name, after) =>
              if name = [] then none
              else if isIdent name then none
              else
                match parsePyIndex name with
                | none => none
                | some n =>
                  if n > 3 then none
                  else (parseTemplateF f after).map fun l => Chunk.grp n :: l
          | _ => none
        else if e = '0' then
          match etail with
          | d1 :: z2 =>
            if isOctCh d1 then
              match z2 with
              | d2 :: z3 =>
                if isOctCh d2 then
                  (parseTemplateF f z3).map fun l =>
                    Chunk.lit (Char.ofNat (8 * digitVal d1 + digitVal d2)) :: l
                else (parseTemplateF f z2).map fun l => Chunk.lit (Char.ofNat (digitVal d1)) :: l
              | [] => some [Chunk.lit (Char.ofNat (digitVal d1))]
            else (parseTemplateF f etail).map fun l => Chunk.lit (Char.ofNat 0) :: l
          | [] => some [Chunk.lit (Char.ofNat 0)]
        else if e.isDigit then
          match etail with
          | d2 :: dtail =>
            if d2.isDigit then
              match dtail with
              | d3 :: dtail2 =>
                if isOctCh e && isOctCh d2 && isOctCh d3 then
                  if 64 * digitVal e + 8 * digitVal d2 + digitVal d3 > 255 then none
                  else (parseTemplateF f dtail2).map fun l =>
                    Chunk.lit (Char.ofNat (64 * digitVal e + 8 * digitVal d2 + digitVal d3)) :: l
                else
                  if 10 * digitVal e + digitVal d2 > 3 then none
                  else (parseTemplateF f dtail).map fun l =>
                    Chunk.grp (10 * digitVal e + digitVal d2) :: l
              | [] =>
                if 10 * digitVal e + digitVal d2 > 3 then none
                else some [Chunk.grp (10 * digitVal e + digitVal d2)]
            else
              if digitVal e > 3 then none
              else (parseTemplateF f etail).map fun l => Chunk.grp (digitVal e) :: l
          | [] =>
            if digitVal e > 3 then none else some [Chunk.grp (digitVal e)]
        else if e = 'a' then (parseTemplateF f etail).map fun l => Chunk.lit '\x07' :: l
        else if e = 'b' then (parseTemplateF f etail).map fun l => Chunk.lit '\x08' :: l
        else if e = 'f' then (parseTemplateF f etail).map fun l => Chunk.lit '\x0c' :: l
        else if e = 'n' then (parseTemplateF f etail).map fun l => Chunk.lit '\n' :: l
        else if e = 'r' then (parseTemplateF f etail).map fun l => Chunk.lit '\r' :: l
        else if e = 't' then (parseTemplateF f etail).map fun l => Chunk.lit '\t' :: l
        else if e = 'v' then (parseTemplateF f etail).map fun l => Chunk.lit '\x0b' :: l
        else if e = '\\' then (parseTemplateF f etail).map fun l => Chunk.lit '\\' :: l
        else if e.isAlpha then none
        else (parseTemplateF f etail).map fun l => Chunk.lit '\\' :: Chunk.lit e :: l
    else (parseTemplateF f tail).map fun l => Chunk.lit c :: l

/-- Parse a full replacement template (the fuel, one more than the
template's length, never runs out). -/
def parseTemplate (l : List Char) : Option (List Chunk) :=
  parseTemplateF (l.length + 1) l

/-- Expand parsed template chunks at one match of the scripts' pattern:
group 1 is the matched opener, group 2 the captured body, group 3 always
the closing `];`, and group 0 the whole match.  Indices above 3 are
rejected by the parser, so the last arm is unreachable. -/
def applyChunks (g1 b : List Char) : List Chunk → List Char
  | [] => []
  | Chunk.lit c :: rest => c :: applyChunks g1 b rest
  | Chunk.grp 0 :: rest => g1 ++ b ++ ']' :: ';' :: applyChunks g1 b rest
  | Chunk.grp 1 :: rest => g1 ++ applyChunks g1 b rest
  | Chunk.grp 2 :: rest => b ++ applyChunks g1 b rest
  | Chunk.grp 3 :: rest => ']' :: ';' :: applyChunks g1 b rest
  | Chunk.grp _ :: rest => applyChunks g1 b rest

/-- A built array content that the template machinery leaves untouched:
no backslash, and no leading digit that would merge with the template's
`\1`.  On such content the interpolated template parses to group 1, the
content's characters as literals, and group 3. -/
def templateInert (nb : List Char) : Bool :=
  !(nb.head?.any fun c => c.isDigit) && nb.all fun c => !(c == '\\')

/-- Fuelled worker for the substitution: each replaced match ends with the
two characters `];`, so the text after a match is strictly shorter than
the text the match was found in, and a fuel equal to the initial length is
always sufficient (proved below). -/
def reSubAllF (chunks : List Chunk) : Nat → List Char → List Char
  | 0, s => s
  | fuel + 1, s =>
    match reSearch s with
    | none => s
    | some (pre, g1, b, post) =>
      pre ++ applyChunks g1 b chunks ++ reSubAllF chunks fuel post

/-- Python `re.sub` for the scripts' pattern and a parsed replacement
template: every non-overlapping match, scanned from the left, is replaced
by the template expanded with that match's groups; scanning resumes after
the end of the replaced match. -/
def reSubAll (chunks : List Chunk) (s : List Char) : List Char :=
  reSubAllF chunks s.length s

namespace AddImage

/-- Lines 37-51 of `add_image.py`: given `array_content`, the stripped
second capture group, build the new array content for the replacement.
The nested inner branch on `array_content.strip()` is kept exactly as
written in the source (it cannot differ from the outer test there, since
`array_content` is already stripped). -/
def buildNewBody (array_content image_filename : List Char) : List Char :=
  if array_content ≠ [] ∧ array_content.getLast? ≠ some ',' then
    if stripWs array_content ≠ [] then
      array_content ++ ",\n      \"".data ++ image_filename ++ ['"']
    else
      "\n      \"".data ++ image_filename ++ "\"\n      ".data
  else
    if array_content ≠ [] then
      array_content ++ "\n      \"".data ++ image_filename ++ ['"']
    else
      "\n      \"".data ++ image_filename ++ "\"\n      ".data

/-- Lines 27-59 of `add_image.py`, the pure text transformation: search
the document for the pattern; if it is absent return `none` (the function
prints an error and returns `False`).  Otherwise strip the captured body,
build the new array content, and substitute exactly as
`re.sub(pattern, rf"\1{new_array_content}\3", content)` does: the
interpolated replacement template is parsed — a parse failure, such as a
group reference made invalid by a digit-leading body or a bad escape from
a backslash in the body, raises `re.error`, modelled as `none`; the
exception propagates and nothing is written — and every match is replaced
by the template expanded at that match. -/
def patchContent (content image_filename : List Char) : Option (List Char) :=
  match reSearch content with
  | none => none
  | some (_, _, b, _) =>
    match parseTemplate ('\\' :: '1' :: (buildNewBody (stripWs b) image_filename ++ ['\\', '3'])) with
    | none => none
    | some chunks => some (reSubAll chunks content)

/-- Lines 15-65 of `add_image.py`: the full `add_image_to_html`, acting on
a file system modelled as a map from paths to file contents.  Returns the
function's outcome together with the file system after the call: if the
HTML file is missing or the pattern is not found the function returns
`False` and nothing is written; a `re.error` raised from the interpolated
replacement template also ends the call with nothing written (the
exception propagates to the caller, whose process then terminates with
status 1 exactly as the `False` paths lead to, so it is modelled by the
same `false` outcome); otherwise the new content replaces the HTML
file. -/
def add_image_to_html (image_filename html_file : List Char)
    (fs : List Char → Option (List Char)) :
    Bool × (List Char → Option (List Char)) :=
  match fs html_file with
  | none => (false, fs)
  | some content =>
    match patchContent content image_filename with
    | none => (false, fs)
    | some new_content =>
      (true, fun p => if p = html_file then some new_content else fs p)

/-- Outcome of one `run_git_command` call in the model: did the command
succeed, and (for the status query) what output came back. -/
structure GitO where
  revParseOk : Bool
  addOk : Bool
  commitOk : Bool
  statusOut : List Char
  pushOk : Bool

/-- Observable reporting events of `commit_and_push_changes`
(lines 98-147 of `add_image.py`). -/
inductive GitEvent where
  | repoCheckFail
  | stageAttempt
  | stageFail
  | commitAttempt
  | commitFail
  | statusQuery
  | infoNoChanges
  | pushAttempt
  | pushFail
  | pushSucceeded
deriving DecidableEq

/-- Lines 98-147 of `add_image.py`: `commit_and_push_changes`.  The commit
message (`commit_message`, or a default built from the filename when it is
absent or empty) only influences the text passed to `git commit`, not the
control flow, so it is not inspected further.  On commit failure the code
runs `git status --porcelain` and, when the output it got back strips to
the empty string, prints the informational no-changes message; in both
cases it returns `False` before reaching the push step. -/
def commit_and_push_changes (image_filename : List Char)
    (commit_message : Option (List Char)) (g : GitO) : Bool × List GitEvent :=
  if g.revParseOk = false then (false, [GitEvent.repoCheckFail])
  else if g.addOk = false then (false, [GitEvent.stageAttempt, GitEvent.stageFail])
  else if g.commitOk = false then
    if stripWs g.statusOut = [] then
      (false, [GitEvent.stageAttempt, GitEvent.commitAttempt, GitEvent.commitFail,
               GitEvent.statusQuery, GitEvent.infoNoChanges])
    else
      (false, [GitEvent.stageAttempt, GitEvent.commitAttempt, GitEvent.commitFail,
               GitEvent.statusQuery])
  else if g.pushOk then
    (true, [GitEvent.stageAttempt, GitEvent.commitAttempt, GitEvent.pushAttempt,
            GitEvent.pushSucceeded])
  else
    (false, [GitEvent.stageAttempt, GitEvent.commitAttempt, GitEvent.pushAttempt,
             GitEvent.pushFail])

/-- Python `os.path.basename` on a POSIX path: the part after the last
slash. -/
def basename (p : List Char) : List Char :=
  (p.reverse.takeWhile (fun c => !(c == '/'))).reverse

/-- Inputs of one run of `add_image.py`: the argument vector (including
the program name, as `sys.argv` does), the file system, whether the
`shutil.copy2` call succeeds, and the outcomes of the git commands. -/
structure World where
  argv : List (List Char)
  fs : List Char → Option (List Char)
  copyOk : Bool
  git : GitO

/-- Replace the git outcomes of a world. -/
def setGit (w : World) (g : GitO) : World :=
  ⟨w.argv, w.fs, w.copyOk, g⟩

/-- Lines 150-192 of `add_image.py`: `main`.  Returns the process exit
code (0 when `main` returns normally, 1 for each `sys.exit(1)`; an
uncaught `re.error` from the patch step also terminates the process with
status 1, matching the modelled `false` branch), the file system after
the run, and the publisher outcome when it was invoked.  `os.makedirs`
only affects directories, which the file-system map does not track;
`shutil.copy2` copies the source file's bytes to `images/<basename>`. -/
def mainAdd (w : World) :
    Nat × (List Char → Option (List Char)) × Option (Bool × List GitEvent) :=
  match w.argv with
  | _prog :: image_path :: rest =>
    match w.fs image_path with
    | none => (1, w.fs, none)
    | some _ =>
      let image_filename := basename image_path
      let destination := "images/".data ++ image_filename
      if w.copyOk = false then (1, w.fs, none)
      else
        let fs1 := fun p => if p = destination then w.fs image_path else w.fs p
        match add_image_to_html image_filename "index.html".data fs1 with
        | (false, fs2) => (1, fs2, none)
        | (true, fs2) =>
          (0, fs2, some (commit_and_push_changes image_filename rest.head? w.git))
  | _ => (1, w.fs, none)

/-- Modelled from the spec (section 6, External Interfaces): the exit-code
policy as the specification words it, for comparison with `mainAdd` —
exit code 1 on missing argument, missing source file, install (copy)
failure, or patch failure, and exit code 0 on full success. -/
def specExitCode (w : World) : Nat :=
  match w.argv with
  | _ :: image_path :: _ =>
    if (w.fs image_path).isNone then 1
    else if w.copyOk = false then 1
    else if (add_image_to_html (basename image_path) "index.html".data
        (fun p => if p = "images/".data ++ basename image_path
                  then w.fs image_path else w.fs p)).1 then 0
    else 1
  | _ => 1

end AddImage

namespace Update

/-- Lines 33-45 of `update.py`: identical body-building logic to the one
in `add_image.py`. -/
def buildNewBody (array_content image_filename : List Char) : List Char :=
  if array_content ≠ [] ∧ array_content.getLast? ≠ some ',' then
    if stripWs array_content ≠ [] then
      array_content ++ ",\n      \"".data ++ image_filename ++ ['"']
    else
      "\n      \"".data ++ image_filename ++ "\"\n      ".data
  else
    if array_content ≠ [] then
      array_content ++ "\n      \"".data ++ image_filename ++ ['"']
    else
      "\n      \"".data ++ image_filename ++ "\"\n      ".data

/-- Lines 21-53 of `update.py`: the pure text transformation of its
`add_image_to_html`, using the same pattern, search, replacement-template
interpolation and substitution as `add_image.py`; `none` models both the
`False` return (pattern absent) and a propagating `re.error` from the
interpolated template, neither of which writes anything. -/
def patchContent (content image_filename : List Char) : Option (List Char) :=
  match reSearch content with
  | none => none
  | some (_, _, b, _) =>
    match parseTemplate ('\\' :: '1' :: (buildNewBody (stripWs b) image_filename ++ ['\\', '3'])) with
    | none => none
    | some chunks => some (reSubAll chunks content)

/-- Lines 9-59 of `update.py`: the full `add_image_to_html` on the
file-system model, with the same outcomes as the one in `add_image.py`
(`false` covering both the `False` return and a propagating
`re.error`). -/
def add_image_to_html (image_filename html_file : List Char)
    (fs : List Char → Option (List Char)) :
    Bool × (List Char → Option (List Char)) :=
  match fs html_file with
  | none => (false, fs)
  | some content =>
    match patchContent content image_filename with
    | none => (false, fs)
    | some new_content =>
      (true, fun p => if p = html_file then some new_content else fs p)

end Update

/-- Concrete run inputs used to exercise the missing-HTML scenario: one
positional argument naming an existing source image, a file system that
holds the source image but no `index.html`, and a copy that succeeds. -/
def wMissingHtml : AddImage.World :=
  ⟨["add_image.py".data, "photo.jpg".data],
   fun p => if p = "photo.jpg".data then some "IMGDATA".data else none,
   true,
   ⟨true, true, true, [], true⟩⟩

theorem dropLit_sound : ∀ (lit s r : List Char), dropLit lit s = some r → s = lit ++ r
  | [], s, r => by
    intro h
    simp only [dropLit, Option.some.injEq] at h
    simp [h]
  | _ :: _, [], r => by intro h; simp [dropLit] at h
  | l :: ls, c :: cs, r => by
    intro h
    simp only [dropLit] at h
    split at h
    · next heq =>
      subst heq
      simpa using dropLit_sound ls cs r h
    · exact absurd h (by simp)

theorem matchOpener_sound {s g1 r : List Char} (h : matchOpener s = some (g1, r)) :
    s = g1 ++ r := by
  unfold matchOpener at h
  split at h
  · exact absurd h (by simp)
  next r1 h1 =>
  split at h
  · exact absurd h (by simp)
  split at h
  · exact absurd h (by simp)
  next r2 h2 =>
  split at h
  · exact absurd h (by simp)
  next r3 h3 =>
  split at h
  · exact absurd h (by simp)
  next r4 h4 =>
  simp only [Option.some.injEq, Prod.mk.injEq] at h
  obtain ⟨hg, hr⟩ := h
  subst hg hr
  have e1 := dropLit_sound _ _ _ h1
  have e2 := dropLit_sound _ _ _ h2
  have e3 := dropLit_sound _ _ _ h3
  have e4 := dropLit_sound _ _ _ h4
  have t1 : r1.takeWhile isWs ++ r1.dropWhile isWs = r1 := List.takeWhile_append_dropWhile isWs r1
  have t2 : r2.takeWhile isWs ++ r2.dropWhile isWs = r2 := List.takeWhile_append_dropWhile isWs r2
  have t3 : r3.takeWhile isWs ++ r3.dropWhile isWs = r3 := List.takeWhile_append_dropWhile isWs r3
  calc s = "const".data ++ r1 := e1
    _ = "const".data ++ (r1.takeWhile isWs ++ r1.dropWhile isWs) := by rw [t1]
    _ = "const".data ++ (r1.takeWhile isWs ++ ("images".data ++ r2)) := by rw [e2]
    _ = "const".data ++ (r1.takeWhile isWs ++ ("images".data ++ (r2.takeWhile isWs ++ r2.dropWhile isWs))) := by
        rw [t2]
    _ = "const".data ++ (r1.takeWhile isWs ++ ("images".data ++ (r2.takeWhile isWs ++ (['='] ++ r3)))) := by
        rw [e3]
    _ = "const".data ++ (r1.takeWhile isWs ++ ("images".data ++ (r2.takeWhile isWs ++ (['='] ++ (r3.takeWhile isWs ++ r3.dropWhile isWs))))) := by
        rw [t3]
    _ = "const".data ++ (r1.takeWhile isWs ++ ("images".data ++ (r2.takeWhile isWs ++ (['='] ++ (r3.takeWhile isWs ++ (['['] ++ r4)))))) := by
        rw [e4]
    _ = ("const".data ++ r1.takeWhile isWs ++ "images".data ++ r2.takeWhile isWs
          ++ '=' :: (r3.takeWhile isWs ++ ['['])) ++ r4 := by simp

theorem splitAtClose_sound : ∀ {s b post : List Char}, splitAtClose s = some (b, post) →
    s = b ++ ']' :: ';' :: post := by
  intro s
  induction s with
  | nil => intro b post h; simp [splitAtClose] at h
  | cons c rest ih =>
    intro b post h
    simp only [splitAtClose] at h
    split at h
    · next hc =>
      obtain ⟨hc1, hc2⟩ := hc
      cases rest with
      | nil => simp at hc2
      | cons d tl =>
        rw [List.head?_cons, Option.some.injEq] at hc2
        rw [List.tail_cons] at h
        simp only [Option.some.injEq, Prod.mk.injEq] at h
        obtain ⟨hb, hp⟩ := h
        subst hb hp hc1 hc2
        rfl
    · cases h5 : splitAtClose rest with
      | none => rw [h5] at h; exact absurd h (by simp)
      | some p =>
        rw [h5] at h
        simp only [Option.map_some', Option.some.injEq, Prod.mk.injEq] at h
        obtain ⟨hb, hp⟩ := h
        have := @ih p.1 p.2 (by rw [h5])
        subst hb hp
        simp [this]

theorem reSearch_sound : ∀ {s pre g1 b post : List Char},
    reSearch s = some (pre, g1, b, post) → s = pre ++ g1 ++ b ++ ']' :: ';' :: post := by
  intro s
  induction s with
  | nil => intro pre g1 b post h; simp [reSearch] at h
  | cons c rest ih =>
    intro pre g1 b post h
    simp only [reSearch] at h
    split at h
    · next a r hm =>
      split at h
      · next p hc =>
        simp only [Option.some.injEq, Prod.mk.injEq] at h
        obtain ⟨h1, h2, h3, h4⟩ := h
        subst h1 h2 h3 h4
        have e1 := matchOpener_sound hm
        have e2 := splitAtClose_sound hc
        simp [e1, e2]
      · next hc =>
        cases hr : reSearch rest with
        | none => rw [hr] at h; exact absurd h (by simp)
        | some q =>
          obtain ⟨q1, q2, q3, q4⟩ := q
          rw [hr] at h
          simp only [Option.map_some', Option.some.injEq, Prod.mk.injEq] at h
          obtain ⟨h1, h2, h3, h4⟩ := h
          have := ih hr
          subst h1 h2 h3 h4
          simp [this]
    · next hm =>
      cases hr : reSearch rest with
      | none => rw [hr] at h; exact absurd h (by simp)
      | some q =>
        obtain ⟨q1, q2, q3, q4⟩ := q
        rw [hr] at h
        simp only [Option.map_some', Option.some.injEq, Prod.mk.injEq] at h
        obtain ⟨h1, h2, h3, h4⟩ := h
        have := ih hr
        subst h1 h2 h3 h4
        simp [this]

theorem reSearch_post_lt {s pre g1 b post : List Char}
    (h : reSearch s = some (pre, g1, b, post)) : post.length < s.length := by
  have := reSearch_sound h
  subst this
  simp only [List.length_append, List.length_cons]
  omega

theorem reSubAllF_congr (chunks : List Chunk) :
    ∀ (f1 f2 : Nat) (s : List Char), s.length ≤ f1 → s.length ≤ f2 →
      reSubAllF chunks f1 s = reSubAllF chunks f2 s
  | 0, 0, s => fun _ _ => rfl
  | 0, _ + 1, s => by
    intro h1 _
    have : s = [] := List.length_eq_zero.mp (Nat.le_zero.mp h1)
    subst this
    rfl
  | _ + 1, 0, s => by
    intro _ h2
    have : s = [] := List.length_eq_zero.mp (Nat.le_zero.mp h2)
    subst this
    rfl
  | f1 + 1, f2 + 1, s => by
    intro h1 h2
    simp only [reSubAllF]
    cases hr : reSearch s with
    | none => rfl
    | some q =>
      obtain ⟨pre, g1, b, post⟩ := q
      have hlt : post.length < s.length := reSearch_post_lt hr
      exact congrArg (fun t => pre ++ applyChunks g1 b chunks ++ t)
        (reSubAllF_congr chunks f1 f2 post (by omega) (by omega))

theorem reSubAll_none {s : List Char} {chunks : List Chunk} (h : reSearch s = none) :
    reSubAll chunks s = s := by
  unfold reSubAll
  rcases hl : s.length with _ | k
  · rfl
  · simp only [reSubAllF, h]

theorem reSubAll_some {s pre g1 b post : List Char} {chunks : List Chunk}
    (h : reSearch s = some (pre, g1, b, post)) :
    reSubAll chunks s = pre ++ applyChunks g1 b chunks ++ reSubAll chunks post := by
  have hlt : post.length < s.length := reSearch_post_lt h
  unfold reSubAll
  rcases hl : s.length with _ | k
  · omega
  · simp only [reSubAllF, h]
    rw [reSubAllF_congr chunks k post.length post (by omega) (Nat.le_refl _)]

theorem head_append_left {l : List Char} (t : List Char) (h : l ≠ []) :
    (l ++ t).head? = l.head? := by
  cases l with
  | nil => exact absurd rfl h
  | cons c cs => rfl

theorem parseTemplateF_cons_lit {c : Char} (f : Nat) (rest : List Char) (h : ¬ c = '\\') :
    parseTemplateF (f + 1) (c :: rest)
      = (parseTemplateF f rest).map (fun l => Chunk.lit c :: l) := by
  simp only [parseTemplateF]
  rw [if_neg h]

theorem parseTemplateF_noBs : ∀ (l : List Char) (f : Nat) (rest : List Char),
    l.all (fun c => !(c == '\\')) = true →
    parseTemplateF (l.length + f) (l ++ rest)
      = (parseTemplateF f rest).map (fun cs => l.map Chunk.lit ++ cs)
  | [], f, rest => by
    intro h
    simp
  | c :: l2, f, rest => by
    intro h
    simp only [List.all_cons, Bool.and_eq_true] at h
    obtain ⟨h1, h2⟩ := h
    have hc : ¬ c = '\\' := by
      intro hcc
      subst hcc
      simp at h1
    have e : (c :: l2).length + f = (l2.length + f) + 1 := by
      simp only [List.length_cons]
      omega
    rw [List.cons_append, e, parseTemplateF_cons_lit _ _ hc,
        parseTemplateF_noBs l2 f rest h2, Option.map_map]
    rfl

theorem parseTemplateF_g1 {c : Char} (f : Nat) (rest : List Char) (hc : c.isDigit = false) :
    parseTemplateF (f + 1) ('\\' :: '1' :: c :: rest)
      = (parseTemplateF f (c :: rest)).map (fun l => Chunk.grp 1 :: l) := by
  simp only [parseTemplateF, reduceIte]
  rw [if_neg (by decide : ¬ ('1' : Char) = '0'),
      if_pos (by decide : ('1' : Char).isDigit = true),
      if_neg (show ¬ c.isDigit = true by simp [hc]),
      if_neg (by decide : ¬ digitVal '1' > 3)]
  rfl

theorem parseTemplate_inert {nb : List Char} (h : templateInert nb = true) :
    parseTemplate ('\\' :: '1' :: (nb ++ ['\\', '3']))
      = some (Chunk.grp 1 :: nb.map Chunk.lit ++ [Chunk.grp 3]) := by
  unfold templateInert at h
  simp only [Bool.and_eq_true] at h
  obtain ⟨hh, hbs⟩ := h
  unfold parseTemplate
  cases nb with
  | nil => rfl
  | cons c nb2 =>
    have hcd : c.isDigit = false := by
      have : (c :: nb2).head?.any (fun c => c.isDigit) = c.isDigit := rfl
      rw [this] at hh
      cases hv : c.isDigit
      · rfl
      · rw [hv] at hh
        cases hh
    have e1 : ('\\' :: '1' :: (c :: nb2 ++ ['\\', '3'])).length + 1 = (nb2.length + 5) + 1 := by
      simp only [List.length_cons, List.length_append, List.length_nil]
    rw [e1, List.cons_append, parseTemplateF_g1 _ _ hcd]
    have e2 : nb2.length + 5 = (c :: nb2).length + 4 := by
      simp only [List.length_cons]
    rw [show (c : Char) :: (nb2 ++ ['\\', '3']) = (c :: nb2) ++ ['\\', '3'] from rfl, e2,
        parseTemplateF_noBs (c :: nb2) 4 ['\\', '3'] hbs]
    rfl

theorem applyChunks_lits_aux (g1 b : List Char) : ∀ nb : List Char,
    applyChunks g1 b (nb.map Chunk.lit ++ [Chunk.grp 3]) = nb ++ ']' :: ';' :: []
  | [] => rfl
  | c :: nb2 => by
    simp only [List.map_cons, List.cons_append, applyChunks, List.append_eq]
    rw [applyChunks_lits_aux g1 b nb2]

theorem applyChunks_lits (g1 b nb : List Char) :
    applyChunks g1 b (Chunk.grp 1 :: nb.map Chunk.lit ++ [Chunk.grp 3])
      = g1 ++ (nb ++ ']' :: ';' :: []) := by
  show g1 ++ applyChunks g1 b (nb.map Chunk.lit ++ [Chunk.grp 3]) = _
  rw [applyChunks_lits_aux]

theorem reSubAll_lits_some {nb s pre g1 b post : List Char}
    (h : reSearch s = some (pre, g1, b, post)) :
    reSubAll (Chunk.grp 1 :: nb.map Chunk.lit ++ [Chunk.grp 3]) s
      = pre ++ g1 ++ nb ++ ']' :: ';' ::
          reSubAll (Chunk.grp 1 :: nb.map Chunk.lit ++ [Chunk.grp 3]) post := by
  rw [reSubAll_some h, applyChunks_lits]
  simp [List.append_assoc]

theorem matchOpener_canonical (rest : List Char) :
    matchOpener ("const images = [".data ++ rest) = some ("const images = [".data, rest) := rfl

theorem splitAtClose_append {xs : List Char} (ys : List Char)
    (h : hasPair ']' ';' xs = false) :
    splitAtClose (xs ++ ']' :: ';' :: ys) = some (xs, ys) := by
  induction xs with
  | nil => simp [splitAtClose]
  | cons c tl ih =>
    simp only [hasPair] at h
    split at h
    · cases h
    · next hcon =>
      have htl := ih h
      simp only [List.cons_append, splitAtClose]
      split
      · next hcc =>
        obtain ⟨hc1, hc2⟩ := hcc
        cases tl with
        | nil => simp at hc2
        | cons d tl2 =>
          simp at hc2
          exact absurd ⟨hc1, by simp [hc2]⟩ hcon
      · simp only [List.append_eq]
        rw [htl]
        simp

theorem reSearch_head {s g1 r b post : List Char} (h1 : matchOpener s = some (g1, r))
    (h2 : splitAtClose r = some (b, post)) : reSearch s = some ([], g1, b, post) := by
  cases s with
  | nil => cases h1
  | cons c rest =>
    simp only [reSearch, h1, h2]

theorem hasPair_append {a b : Char} {xs ys : List Char} (h1 : hasPair a b xs = false)
    (h2 : hasPair a b ys = false)
    (h3 : xs.getLast? ≠ some a ∨ ys.head? ≠ some b) :
    hasPair a b (xs ++ ys) = false := by
  induction xs with
  | nil => simpa using h2
  | cons c tl ih =>
    simp only [hasPair] at h1
    split at h1
    · cases h1
    · next hcon =>
      simp only [List.cons_append, hasPair]
      split
      · next hcc =>
        obtain ⟨hc1, hc2⟩ := hcc
        cases tl with
        | nil =>
          rcases h3 with h3 | h3
          · exact absurd (by simp [hc1]) h3
          · simp at hc2
            exact absurd hc2 h3
        | cons d tl2 =>
          simp at hc2
          exact absurd ⟨hc1, by simp [hc2]⟩ hcon
      · apply ih h1
        cases tl with
        | nil =>
          left
          simp
        | cons d tl2 =>
          rcases h3 with h3 | h3
          · left
            simpa [List.getLast?_cons_cons] using h3
          · right
            exact h3

theorem dropWhile_ws_append {w : List Char} (x : List Char)
    (h : ∀ c ∈ w, isWs c = true) : List.dropWhile isWs (w ++ x) = List.dropWhile isWs x := by
  induction w with
  | nil => simp
  | cons c tl ih =>
    have hc : isWs c = true := h c (by simp)
    simp only [List.cons_append, List.dropWhile_cons, hc, if_true]
    exact ih fun d hd => h d (by simp [hd])

theorem stripWs_sandwich {w1 w2 : List Char} (mid : List Char)
    (h1 : ∀ c ∈ w1, isWs c = true) (h2 : ∀ c ∈ w2, isWs c = true) :
    stripWs (w1 ++ ('"' :: mid ++ ['"']) ++ w2) = '"' :: mid ++ ['"'] := by
  unfold stripWs
  have e1 : List.dropWhile isWs (w1 ++ ('"' :: mid ++ ['"']) ++ w2)
      = '"' :: (mid ++ ['"'] ++ w2) := by
    rw [List.append_assoc, dropWhile_ws_append _ h1]
    simp [List.dropWhile_cons, isWs]
  rw [e1]
  have e2 : ('"' :: (mid ++ ['"'] ++ w2)).reverse = w2.reverse ++ ('"' :: mid.reverse ++ ['"']) := by
    simp
  rw [e2]
  have e3 : List.dropWhile isWs (w2.reverse ++ ('"' :: mid.reverse ++ ['"']))
      = '"' :: mid.reverse ++ ['"'] := by
    rw [dropWhile_ws_append _ (fun c hc => h2 c (List.mem_reverse.mp hc))]
    simp [List.dropWhile_cons, isWs]
  rw [e3]
  simp

theorem buildNewBody_empty (fn : List Char) :
    AddImage.buildNewBody [] fn = "\n      \"".data ++ fn ++ "\"\n      ".data := by
  simp [AddImage.buildNewBody]

theorem buildNewBody_append {ac : List Char} (fn : List Char) (hne : ac ≠ [])
    (hlast : ac.getLast? ≠ some ',') (hstrip : stripWs ac ≠ []) :
    AddImage.buildNewBody ac fn = ac ++ ",\n      \"".data ++ fn ++ ['"'] := by
  unfold AddImage.buildNewBody
  rw [if_pos ⟨hne, hlast⟩, if_pos hstrip]

theorem buildNewBody_comma {ac : List Char} (fn : List Char) (hne : ac ≠ [])
    (hlast : ac.getLast? = some ',') :
    AddImage.buildNewBody ac fn = ac ++ "\n      \"".data ++ fn ++ ['"'] := by
  unfold AddImage.buildNewBody
  rw [if_neg (by simp [hlast]), if_pos hne]

theorem patchContent_inert {doc pre g1 b post : List Char} (fn : List Char)
    (h : reSearch doc = some (pre, g1, b, post))
    (hin : templateInert (AddImage.buildNewBody (stripWs b) fn) = true) :
    AddImage.patchContent doc fn
      = some (reSubAll (Chunk.grp 1 ::
          (AddImage.buildNewBody (stripWs b) fn).map Chunk.lit ++ [Chunk.grp 3]) doc) := by
  simp only [AddImage.patchContent, h, parseTemplate_inert hin]

/-- C1 (counterexample): for the document whose manifest declaration is
exactly `const images = [` newline six-spaces `"a.jpg"` newline
four-spaces `];`, the add operation with filename `b.jpg` does not
produce the declaration claimed (`const images = [` newline six-spaces
`"a.jpg",` newline six-spaces `"b.jpg"` newline four-spaces `];`): the
code strips the captured body before rebuilding it, so the body's leading
newline-and-indentation and trailing newline-and-indentation are lost. -/
theorem addImage_end_to_end_counterexample :
    AddImage.patchContent "const images = [\n      \"a.jpg\"\n    ];".data "b.jpg".data ≠
      some "const images = [\n      \"a.jpg\",\n      \"b.jpg\"\n    ];".data := by
  decide

/-- C1 (amended): for a document whose manifest declaration is exactly
`const images = [` newline six-spaces `"a.jpg"` newline four-spaces `];`,
the add operation with filename `b.jpg` yields the declaration
`const images = ["a.jpg",` newline six-spaces `"b.jpg"];` — the stripped
body immediately follows the opening `[` and the closing `];` immediately
follows the new entry — with everything before and after the declaration
unchanged. -/
theorem addImage_end_to_end_actual :
    AddImage.patchContent
        ("<html>\n".data ++ "const images = [\n      \"a.jpg\"\n    ];".data ++ "\n</html>".data)
        "b.jpg".data =
      some ("<html>\n".data ++ "const images = [\"a.jpg\",\n      \"b.jpg\"];".data
            ++ "\n</html>".data) := by
  decide

/-- C2: for every document containing exactly one occurrence of the
pattern (the search finds a match and the text after that match contains
no further match) and every filename, every successful patch keeps all
text before the opener and after the closing `];` verbatim (the result is
the prefix, some middle part, and the suffix); and whenever the computed
new body is template-inert (it starts with no digit and contains no
backslash, so Python's template expansion reads the substitution template
literally) the patch succeeds and yields exactly the prefix, the opener
verbatim, the new body, the closing `];` verbatim, and the suffix
verbatim. -/
theorem patch_frame {doc fn pre g1 b post : List Char}
    (h1 : reSearch doc = some (pre, g1, b, post)) (h2 : reSearch post = none) :
    (∀ out, AddImage.patchContent doc fn = some out →
        ∃ mid, out = pre ++ mid ++ post) ∧
      (templateInert (AddImage.buildNewBody (stripWs b) fn) = true →
        AddImage.patchContent doc fn =
          some (pre ++ g1 ++ AddImage.buildNewBody (stripWs b) fn ++ ']' :: ';' :: post)) := by
  constructor
  · intro out hout
    simp only [AddImage.patchContent, h1] at hout
    cases hpt : parseTemplate ('\\' :: '1' ::
        (AddImage.buildNewBody (stripWs b) fn ++ ['\\', '3'])) with
    | none =>
      rw [hpt] at hout
      cases hout
    | some chunks =>
      rw [hpt] at hout
      have hco : reSubAll chunks doc = out := by
        injection hout
      refine ⟨applyChunks g1 b chunks, ?_⟩
      rw [← hco, reSubAll_some h1, reSubAll_none h2]
  · intro hin
    rw [patchContent_inert fn h1 hin, reSubAll_lits_some h1, reSubAll_none h2]

/-- Witness for the frame property on the concrete document
`XX const images = ["a"]; YY`: the computed body is template-inert, so
the second conjunct applies and gives the fully explicit patched text. -/
theorem patch_frame_witness :
    reSearch "XX const images = [\"a\"]; YY".data =
        some ("XX ".data, "const images = [".data, "\"a\"".data, " YY".data) ∧
      reSearch " YY".data = none ∧
      templateInert (AddImage.buildNewBody (stripWs "\"a\"".data) "b.jpg".data) = true ∧
      AddImage.patchContent "XX const images = [\"a\"]; YY".data "b.jpg".data =
        some ("XX ".data ++ "const images = [".data ++
          AddImage.buildNewBody (stripWs "\"a\"".data) "b.jpg".data ++ ']' :: ';' :: " YY".data) :=
  ⟨by decide, by decide, by decide,
    (patch_frame (by decide) (by decide)).2 (by decide)⟩

/-- C3: for every file system, path and document such that the document
contains no occurrence of the pattern, `add_image_to_html` returns
`False` and performs no write: the returned file system is exactly the
one it was given. -/
theorem patch_no_match {fn file content : List Char} {fs : List Char → Option (List Char)}
    (h1 : fs file = some content) (h2 : reSearch content = none) :
    AddImage.add_image_to_html fn file fs = (false, fs) := by
  have hpc : AddImage.patchContent content fn = none := by
    simp only [AddImage.patchContent, h2]
  simp only [AddImage.add_image_to_html, h1, hpc]

/-- Witness for the no-match failure on a concrete document with no
`const images = [...];` declaration. -/
theorem patch_no_match_witness :
    (fun p => if p = "index.html".data
              then some "<html><body>hello</body></html>".data
              else none) "index.html".data = some "<html><body>hello</body></html>".data ∧
      reSearch "<html><body>hello</body></html>".data = none ∧
      AddImage.add_image_to_html "b.jpg".data "index.html".data
          (fun p => if p = "index.html".data
                    then some "<html><body>hello</body></html>".data
                    else none) =
        (false, fun p => if p = "index.html".data
                         then some "<html><body>hello</body></html>".data
                         else none) :=
  ⟨by decide, by decide,
    @patch_no_match "b.jpg".data "index.html".data "<html><body>hello</body></html>".data
      (fun p => if p = "index.html".data
                then some "<html><body>hello</body></html>".data
                else none) (by decide) (by decide)⟩

/-- C8: the two scripts' `add_image_to_html` functions are extensionally
equal: for every filename, HTML path and file system they return the same
result and the same resulting file system.  (The two source functions are
line-for-line identical, so the embedded definitions coincide.) -/
theorem scripts_extensionally_equal (fn file : List Char)
    (fs : List Char → Option (List Char)) :
    AddImage.add_image_to_html fn file fs = Update.add_image_to_html fn file fs := rfl

/-- C9 (counterexample): in the document
`const images = [1]; const images = [2];` the pattern occurs twice, yet
the patch rewrites nothing: the first captured body is `1`, so the
substitution template begins `\11` and Python's template expansion reads
an invalid group reference 11, raising `re.error` before any occurrence
is replaced — the claim that every occurrence is rewritten fails. -/
theorem patch_all_occurrences_counterexample :
    reSearch "const images = [1]; const images = [2];".data =
        some ([], "const images = [".data, ['1'], " const images = [2];".data) ∧
      reSearch " const images = [2];".data =
        some ([' '], "const images = [".data, ['2'], []) ∧
      AddImage.patchContent "const images = [1]; const images = [2];".data
        "n.png".data = none :=
  ⟨by decide, by decide, by decide⟩

/-- C9 (amended): for every document in which the pattern occurs more
than once (the search finds a match and the text after it contains a
further match) and every filename such that the new body computed from
the first occurrence's captured body is template-inert (starts with no
digit, contains no backslash), the substitution rewrites every
occurrence: each occurrence keeps its own opener and closer, but every
occurrence's body is replaced by the single new body computed from the
first occurrence's captured body.  When the computed body is not
template-inert, Python's template expansion can instead raise `re.error`
and patch nothing, as the counterexample shows. -/
theorem patch_all_occurrences {doc fn pre g1 b1 rest1 mid g2 b2 rest2 : List Char}
    (h1 : reSearch doc = some (pre, g1, b1, rest1))
    (h2 : reSearch rest1 = some (mid, g2, b2, rest2))
    (hin : templateInert (AddImage.buildNewBody (stripWs b1) fn) = true) :
    AddImage.patchContent doc fn =
      some (pre ++ g1 ++ AddImage.buildNewBody (stripWs b1) fn ++ ']' :: ';' ::
        (mid ++ g2 ++ AddImage.buildNewBody (stripWs b1) fn ++ ']' :: ';' ::
          reSubAll (Chunk.grp 1 ::
            (AddImage.buildNewBody (stripWs b1) fn).map Chunk.lit
            ++ [Chunk.grp 3]) rest2)) := by
  rw [patchContent_inert fn h1 hin, reSubAll_lits_some h1, reSubAll_lits_some h2]

/-- Witness for the rewrite-all-occurrences property on the concrete
document `const images = ["a"]; const images = ["b"];`: the computed body
is template-inert and the second body `"b"` is also replaced, by the body
computed from the first occurrence. -/
theorem patch_all_occurrences_witness :
    reSearch "const images = [\"a\"]; const images = [\"b\"];".data =
        some ([], "const images = [".data, "\"a\"".data,
          " const images = [\"b\"];".data) ∧
      reSearch " const images = [\"b\"];".data =
        some ([' '], "const images = [".data, "\"b\"".data, []) ∧
      templateInert (AddImage.buildNewBody (stripWs "\"a\"".data) "n.png".data) = true ∧
      AddImage.patchContent "const images = [\"a\"]; const images = [\"b\"];".data
          "n.png".data =
        some ([] ++ "const images = [".data
          ++ AddImage.buildNewBody (stripWs "\"a\"".data) "n.png".data ++ ']' :: ';' ::
          ([' '] ++ "const images = [".data
            ++ AddImage.buildNewBody (stripWs "\"a\"".data) "n.png".data ++ ']' :: ';' ::
            reSubAll (Chunk.grp 1 ::
              (AddImage.buildNewBody (stripWs "\"a\"".data) "n.png".data).map Chunk.lit
              ++ [Chunk.grp 3]) [])) :=
  ⟨by decide, by decide, by decide,
    @patch_all_occurrences "const images = [\"a\"]; const images = [\"b\"];".data
      "n.png".data
      [] "const images = [".data "\"a\"".data " const images = [\"b\"];".data
      [' '] "const images = [".data "\"b\"".data []
      (by decide) (by decide) (by decide)⟩

/-- C5 (counterexample): the document `const images = [,foo,];` has a
non-empty stripped body `,foo,` ending in a comma, yet patching it with
the filename `x,\2` introduces two consecutive commas: the computed body
is interpolated into the substitution template, so the `\2` inside the
filename expands to the captured body `,foo,` and the patched document
contains `x,,foo,` — the claim that no double comma is ever introduced
fails. -/
theorem append_trailing_comma_counterexample :
    stripWs ",foo,".data ≠ [] ∧
      (stripWs ",foo,".data).getLast? = some ',' ∧
      AddImage.patchContent "const images = [,foo,];".data "x,\\2".data =
        some "const images = [,foo,\n      \"x,,foo,\"];".data ∧
      hasPair ',' ',' "const images = [,foo,\n      \"x,,foo,\"];".data = true :=
  ⟨by decide, by decide, by decide, by decide⟩

/-- C5 (amended): for every document whose stripped captured body is
non-empty, ends with a comma, starts with no digit and contains no
backslash, and every filename containing no backslash (so the computed
body is template-inert and expansion reads it literally), the patch
appends the newline, the indentation and the new quoted entry to the
stripped body without adding another comma; consequently, when neither
the stripped body nor the filename contains two consecutive commas, the
patched body contains no two consecutive commas either.  Without the
backslash and leading-digit restrictions the expansion can re-insert the
captured body or raise `re.error`, as the counterexample shows. -/
theorem append_trailing_comma {doc fn pre g1 b post : List Char}
    (h : reSearch doc = some (pre, g1, b, post))
    (hne : stripWs b ≠ []) (hc : (stripWs b).getLast? = some ',')
    (hd : (stripWs b).head?.any (fun c => c.isDigit) = false)
    (hbs : (stripWs b).all (fun c => !(c == '\\')) = true)
    (hfn : fn.all (fun c => !(c == '\\')) = true) :
    AddImage.patchContent doc fn =
        some (pre ++ g1 ++ (stripWs b ++ "\n      \"".data ++ fn ++ ['"']) ++ ']' :: ';' ::
          reSubAll (Chunk.grp 1 ::
            (stripWs b ++ "\n      \"".data ++ fn ++ ['"']).map Chunk.lit
            ++ [Chunk.grp 3]) post) ∧
      (hasPair ',' ',' (stripWs b) = false → hasPair ',' ',' fn = false →
        hasPair ',' ',' (stripWs b ++ "\n      \"".data ++ fn ++ ['"']) = false) := by
  have hbnb : AddImage.buildNewBody (stripWs b) fn
      = stripWs b ++ "\n      \"".data ++ fn ++ ['"'] :=
    buildNewBody_comma fn hne hc
  have e : stripWs b ++ "\n      \"".data ++ fn ++ ['"']
      = stripWs b ++ ("\n      \"".data ++ (fn ++ ['"'])) := by
    simp [List.append_assoc]
  have hin : templateInert (AddImage.buildNewBody (stripWs b) fn) = true := by
    rw [hbnb]
    unfold templateInert
    rw [Bool.and_eq_true]
    constructor
    · rw [e, head_append_left _ hne, hd]
      rfl
    · rw [e]
      simp only [List.all_append, Bool.and_eq_true]
      exact ⟨hbs, by decide, hfn, by decide⟩
  constructor
  · rw [patchContent_inert fn h hin, hbnb, reSubAll_lits_some h]
  · intro hb hf
    rw [e]
    apply hasPair_append hb _ (Or.inr (by simp))
    apply hasPair_append (by decide) _ (Or.inl (by decide))
    exact hasPair_append hf (by decide) (Or.inr (by simp))

/-- Witness for the trailing-comma case on the concrete document
`const images = ["a.jpg",];`. -/
theorem append_trailing_comma_witness :
    reSearch "const images = [\"a.jpg\",];".data =
        some ([], "const images = [".data, "\"a.jpg\",".data, []) ∧
      stripWs "\"a.jpg\",".data ≠ [] ∧
      (stripWs "\"a.jpg\",".data).getLast? = some ',' ∧
      (stripWs "\"a.jpg\",".data).head?.any (fun c => c.isDigit) = false ∧
      (stripWs "\"a.jpg\",".data).all (fun c => !(c == '\\')) = true ∧
      ("b.jpg".data).all (fun c => !(c == '\\')) = true ∧
      (AddImage.patchContent "const images = [\"a.jpg\",];".data "b.jpg".data =
          some ([] ++ "const images = [".data
            ++ (stripWs "\"a.jpg\",".data ++ "\n      \"".data ++ "b.jpg".data ++ ['"'])
            ++ ']' :: ';' ::
            reSubAll (Chunk.grp 1 ::
              (stripWs "\"a.jpg\",".data ++ "\n      \"".data
                ++ "b.jpg".data ++ ['"']).map Chunk.lit
              ++ [Chunk.grp 3]) []) ∧
        (hasPair ',' ',' (stripWs "\"a.jpg\",".data) = false →
          hasPair ',' ',' "b.jpg".data = false →
          hasPair ',' ','
            (stripWs "\"a.jpg\",".data ++ "\n      \"".data ++ "b.jpg".data ++ ['"']) = false)) :=
  ⟨by decide, by decide, by decide, by decide, by decide, by decide,
    @append_trailing_comma "const images = [\"a.jpg\",];".data "b.jpg".data
      [] "const images = [".data "\"a.jpg\",".data []
      (by decide) (by decide) (by decide) (by decide) (by decide) (by decide)⟩

/-- C4 (counterexample): with first filename `a];b` (which contains the
close sequence `];`) and second filename `c.jpg`, appending twice to the
document `const images = [];` yields a document that does not even
contain the quoted entry for the first filename, so the resulting body
does not consist of the two quoted entries: the `];` inside the first
entry is taken as the declaration's close by the second patch. -/
theorem append_twice_counterexample :
    ((AddImage.patchContent "const images = [];".data "a];b".data).bind
        (fun d => AddImage.patchContent d "c.jpg".data))
        = some "const images = [\"a,\n      \"c.jpg\"];b\"\n      ];".data ∧
      ¬ ("\"a];b\"".data <:+:
          "const images = [\"a,\n      \"c.jpg\"];b\"\n      ];".data) :=
  ⟨by decide, by decide⟩

/-- C4 (amended): for every pair of filenames containing no backslash
(so the computed bodies are template-inert) such that the first one does
not contain the two-character sequence `];`, appending the first and
then the second to the document `const images = [];` (whose manifest body
is empty) yields the manifest `const images = ["f1",` newline six-spaces
`"f2"];`: exactly the two quoted entries in that order, separated by one
comma, with no dangling comma before the closing bracket. -/
theorem append_twice (f1 f2 : List Char) (h : hasPair ']' ';' f1 = false)
    (hb1 : f1.all (fun c => !(c == '\\')) = true)
    (hb2 : f2.all (fun c => !(c == '\\')) = true) :
    (AddImage.patchContent "const images = [];".data f1).bind
        (fun d => AddImage.patchContent d f2) =
      some ("const images = [".data ++ ('"' :: f1 ++ ['"'])
            ++ (",\n      \"".data ++ f2 ++ ['"']) ++ [']', ';']) := by
  have h0 : reSearch "const images = [];".data
      = some ([], "const images = [".data, [], []) := by decide
  have hbb1 : AddImage.buildNewBody (stripWs ([] : List Char)) f1
      = "\n      \"".data ++ f1 ++ "\"\n      ".data := buildNewBody_empty f1
  have hin1 : templateInert (AddImage.buildNewBody (stripWs ([] : List Char)) f1) = true := by
    rw [hbb1]
    have e : "\n      \"".data ++ f1 ++ "\"\n      ".data
        = "\n      \"".data ++ (f1 ++ "\"\n      ".data) := by
      simp [List.append_assoc]
    unfold templateInert
    rw [Bool.and_eq_true]
    constructor
    · rw [e, @head_append_left "\n      \"".data (f1 ++ "\"\n      ".data) (by decide)]
      decide
    · rw [e]
      simp only [List.all_append, Bool.and_eq_true]
      exact ⟨by decide, hb1, by decide⟩
  have hp1 : AddImage.patchContent "const images = [];".data f1
      = some (reSubAll (Chunk.grp 1 ::
          (AddImage.buildNewBody (stripWs ([] : List Char)) f1).map Chunk.lit
          ++ [Chunk.grp 3]) "const images = [];".data) :=
    patchContent_inert f1 h0 hin1
  have hsub1 : reSubAll (Chunk.grp 1 ::
        ("\n      \"".data ++ f1 ++ "\"\n      ".data).map Chunk.lit ++ [Chunk.grp 3])
        "const images = [];".data
      = "const images = [".data
        ++ (("\n      \"".data ++ f1 ++ "\"\n      ".data) ++ ']' :: ';' :: []) := by
    rw [reSubAll_lits_some h0,
        reSubAll_none (show reSearch ([] : List Char) = none from rfl)]
    simp
  have hpA : hasPair ']' ';' ("\n      \"".data ++ f1) = false :=
    hasPair_append (by decide) h (Or.inl (by decide))
  have hpair1 : hasPair ']' ';' ("\n      \"".data ++ f1 ++ "\"\n      ".data) = false :=
    hasPair_append hpA (by decide) (Or.inr (by decide))
  have hsc : splitAtClose (("\n      \"".data ++ f1 ++ "\"\n      ".data) ++ ']' :: ';' :: [])
      = some ("\n      \"".data ++ f1 ++ "\"\n      ".data, []) :=
    splitAtClose_append [] hpair1
  have hsearch1 : reSearch ("const images = [".data
        ++ (("\n      \"".data ++ f1 ++ "\"\n      ".data) ++ ']' :: ';' :: []))
      = some ([], "const images = [".data,
          "\n      \"".data ++ f1 ++ "\"\n      ".data, []) :=
    reSearch_head (matchOpener_canonical _) hsc
  have hstrip1 : stripWs ("\n      \"".data ++ f1 ++ "\"\n      ".data)
      = '"' :: f1 ++ ['"'] := by
    have e1 : ("\n      \"".data : List Char)
        = '\n' :: ' ' :: ' ' :: ' ' :: ' ' :: ' ' :: ' ' :: '"' :: [] := rfl
    have e2 : ("\"\n      ".data : List Char)
        = '"' :: '\n' :: ' ' :: ' ' :: ' ' :: ' ' :: ' ' :: ' ' :: [] := rfl
    have e3 : ("\n      ".data : List Char)
        = '\n' :: ' ' :: ' ' :: ' ' :: ' ' :: ' ' :: ' ' :: [] := rfl
    have e : "\n      \"".data ++ f1 ++ "\"\n      ".data
        = "\n      ".data ++ ('"' :: f1 ++ ['"']) ++ "\n      ".data := by
      rw [e1, e2, e3]
      simp
    rw [e]
    exact stripWs_sandwich f1 (by decide) (by decide)
  have hlast : ('"' :: f1 ++ ['"']).getLast? = some '"' := by
    rw [List.getLast?_concat]
  have hstripac : stripWs ('"' :: f1 ++ ['"']) = '"' :: f1 ++ ['"'] := by
    have e := @stripWs_sandwich [] [] f1 (by simp) (by simp)
    simpa using e
  have hbb2 : AddImage.buildNewBody ('"' :: f1 ++ ['"']) f2
      = ('"' :: f1 ++ ['"']) ++ ",\n      \"".data ++ f2 ++ ['"'] :=
    buildNewBody_append f2 (by simp) (by rw [hlast]; decide) (by rw [hstripac]; simp)
  have hin2 : templateInert (AddImage.buildNewBody
      (stripWs ("\n      \"".data ++ f1 ++ "\"\n      ".data)) f2) = true := by
    rw [hstrip1, hbb2]
    have e2 : ('"' :: f1 ++ ['"']) ++ ",\n      \"".data ++ f2 ++ ['"']
        = '"' :: (f1 ++ (['"'] ++ (",\n      \"".data ++ (f2 ++ ['"'])))) := by
      simp [List.append_assoc]
    unfold templateInert
    rw [Bool.and_eq_true]
    constructor
    · rw [e2, List.head?_cons]
      decide
    · rw [e2]
      simp only [List.all_cons, List.all_append, Bool.and_eq_true]
      exact ⟨by decide, hb1, by decide, by decide, hb2, by decide⟩
  have hp2 : AddImage.patchContent ("const images = [".data
        ++ (("\n      \"".data ++ f1 ++ "\"\n      ".data) ++ ']' :: ';' :: [])) f2
      = some (reSubAll (Chunk.grp 1 ::
          (AddImage.buildNewBody
            (stripWs ("\n      \"".data ++ f1 ++ "\"\n      ".data)) f2).map Chunk.lit
          ++ [Chunk.grp 3])
          ("const images = [".data
            ++ (("\n      \"".data ++ f1 ++ "\"\n      ".data) ++ ']' :: ';' :: []))) :=
    patchContent_inert f2 hsearch1 hin2
  have hbind : (AddImage.patchContent "const images = [];".data f1).bind
        (fun d => AddImage.patchContent d f2)
      = AddImage.patchContent ("const images = [".data
          ++ (("\n      \"".data ++ f1 ++ "\"\n      ".data) ++ ']' :: ';' :: [])) f2 := by
    rw [hp1, hbb1, hsub1]
    rfl
  rw [hbind, hp2, hstrip1, hbb2, reSubAll_lits_some hsearch1,
      reSubAll_none (show reSearch ([] : List Char) = none from rfl)]
  simp [List.append_assoc]

/-- Witness for the amended double-append property at the filenames
`a.jpg` and `b.jpg`. -/
theorem append_twice_witness :
    hasPair ']' ';' "a.jpg".data = false ∧
      ("a.jpg".data).all (fun c => !(c == '\\')) = true ∧
      ("b.jpg".data).all (fun c => !(c == '\\')) = true ∧
      (AddImage.patchContent "const images = [];".data "a.jpg".data).bind
          (fun d => AddImage.patchContent d "b.jpg".data) =
        some ("const images = [".data ++ ('"' :: "a.jpg".data ++ ['"'])
              ++ (",\n      \"".data ++ "b.jpg".data ++ ['"']) ++ [']', ';']) :=
  ⟨by decide, by decide, by decide,
    append_twice "a.jpg".data "b.jpg".data (by decide) (by decide) (by decide)⟩

theorem index_ne_dest (x : List Char) : ¬ ("index.html".data = "images/".data ++ x) := by
  intro hcon
  have h2 : ('i' :: 'n' :: 'd' :: 'e' :: 'x' :: '.' :: 'h' :: 't' :: 'm' :: 'l' :: ([] : List Char))
      = 'i' :: 'm' :: 'a' :: 'g' :: 'e' :: 's' :: '/' :: x := hcon
  simp at h2

/-- C6: the exit code of `main` is exactly the one the specification
states — 1 when the argument vector has no positional argument, when the
source image path does not exist, when the copy fails, or when the
manifest patch fails; 0 when install and patch both succeed — and
replacing the git outcomes by any others never changes the exit code, so
stage, commit or push failures do not alter it. -/
theorem exit_code_policy (w : AddImage.World) (g : AddImage.GitO) :
    (AddImage.mainAdd w).1 = AddImage.specExitCode w ∧
      (AddImage.mainAdd (AddImage.setGit w g)).1 = (AddImage.mainAdd w).1 := by
  obtain ⟨argv, fs, copyOk, git⟩ := w
  rcases argv with _ | ⟨pg, _ | ⟨ip, rest⟩⟩
  · exact ⟨rfl, rfl⟩
  · exact ⟨rfl, rfl⟩
  · cases hfs : fs ip with
    | none =>
      constructor
      · simp [AddImage.mainAdd, AddImage.specExitCode, hfs]
      · simp [AddImage.mainAdd, AddImage.setGit, hfs]
    | some c0 =>
      cases copyOk with
      | false =>
        constructor
        · simp [AddImage.mainAdd, AddImage.specExitCode, hfs]
        · simp [AddImage.mainAdd, AddImage.setGit, hfs]
      | true =>
        constructor
        · simp [AddImage.mainAdd, AddImage.specExitCode, hfs]
          split
          · next fs2 heq => simp [heq]
          · next fs2 heq => simp [heq]
        · simp [AddImage.mainAdd, AddImage.setGit, hfs]
          split
          · next fs2 heq => simp [heq]
          · next fs2 heq => simp [heq]

/-- C7 (counterexample): with a git oracle where the repository check and
staging succeed, the commit fails, and the status query returns empty
output, the Publisher does print the informational no-changes message,
but it also reports the commit failure and returns a failure result — the
informational outcome is reported in addition to the hard failure, not
instead of it. -/
theorem commit_nothing_to_commit_counterexample :
    (AddImage.commit_and_push_changes "a.jpg".data none
        ⟨true, true, false, [], true⟩).1 = false ∧
      AddImage.GitEvent.commitFail ∈
        (AddImage.commit_and_push_changes "a.jpg".data none
          ⟨true, true, false, [], true⟩).2 ∧
      AddImage.GitEvent.infoNoChanges ∈
        (AddImage.commit_and_push_changes "a.jpg".data none
          ⟨true, true, false, [], true⟩).2 := by
  decide

/-- C7 (amended): whenever the commit step fails after a successful
repository check and staging, the Publisher reports the commit failure,
never attempts the push, and returns a failure result; the informational
`nothing to commit` outcome is reported in addition exactly when the
status query's output strips to the empty string. -/
theorem commit_failure_reporting (fn : List Char) (m : Option (List Char))
    (g : AddImage.GitO) (h1 : g.revParseOk = true) (h2 : g.addOk = true)
    (h3 : g.commitOk = false) :
    (AddImage.commit_and_push_changes fn m g).1 = false ∧
      AddImage.GitEvent.pushAttempt ∉ (AddImage.commit_and_push_changes fn m g).2 ∧
      AddImage.GitEvent.commitFail ∈ (AddImage.commit_and_push_changes fn m g).2 ∧
      (AddImage.GitEvent.infoNoChanges ∈ (AddImage.commit_and_push_changes fn m g).2 ↔
        stripWs g.statusOut = []) := by
  by_cases hs : stripWs g.statusOut = [] <;>
    simp [AddImage.commit_and_push_changes, h1, h2, h3, hs]

/-- Witness for the commit-failure reporting on a concrete oracle whose
status query reports a pending change. -/
theorem commit_failure_reporting_witness :
    (⟨true, true, false, " M index.html".data, true⟩ : AddImage.GitO).revParseOk = true ∧
      (⟨true, true, false, " M index.html".data, true⟩ : AddImage.GitO).addOk = true ∧
      (⟨true, true, false, " M index.html".data, true⟩ : AddImage.GitO).commitOk = false ∧
      ((AddImage.commit_and_push_changes "a.jpg".data none
          ⟨true, true, false, " M index.html".data, true⟩).1 = false ∧
        AddImage.GitEvent.pushAttempt ∉
          (AddImage.commit_and_push_changes "a.jpg".data none
            ⟨true, true, false, " M index.html".data, true⟩).2 ∧
        AddImage.GitEvent.commitFail ∈
          (AddImage.commit_and_push_changes "a.jpg".data none
            ⟨true, true, false, " M index.html".data, true⟩).2 ∧
        (AddImage.GitEvent.infoNoChanges ∈
            (AddImage.commit_and_push_changes "a.jpg".data none
              ⟨true, true, false, " M index.html".data, true⟩).2 ↔
          stripWs (⟨true, true, false, " M index.html".data, true⟩ : AddImage.GitO).statusOut
            = [])) :=
  ⟨rfl, rfl, rfl,
    commit_failure_reporting "a.jpg".data none
      ⟨true, true, false, " M index.html".data, true⟩ rfl rfl rfl⟩

/-- C10: when the run has a positional argument naming an existing source
image, the copy succeeds, and no `index.html` exists, the patch step
fails, the entry point exits with code 1, and the final file system is
the original one plus exactly the copied asset at `images/<basename>` —
the orphaned asset is not rolled back and nothing else is written. -/
theorem patch_missing_html {w : AddImage.World} {pg ip : List Char}
    {rest : List (List Char)} {content : List Char}
    (h1 : w.argv = pg :: ip :: rest) (h2 : w.fs ip = some content)
    (h3 : w.copyOk = true) (h4 : w.fs "index.html".data = none) :
    (AddImage.mainAdd w).1 = 1 ∧
      ∀ q, (AddImage.mainAdd w).2.1 q =
        if q = "images/".data ++ AddImage.basename ip then w.fs ip else w.fs q := by
  have hne : ¬ ((['i', 'n', 'd', 'e', 'x', '.', 'h', 't', 'm', 'l'] : List Char)
      = 'i' :: 'm' :: 'a' :: 'g' :: 'e' :: 's' :: '/' :: AddImage.basename ip) :=
    index_ne_dest (AddImage.basename ip)
  have h4b : w.fs ['i', 'n', 'd', 'e', 'x', '.', 'h', 't', 'm', 'l'] = none := h4
  have hadd : AddImage.add_image_to_html (AddImage.basename ip)
      ['i', 'n', 'd', 'e', 'x', '.', 'h', 't', 'm', 'l']
      (fun q => if q = 'i' :: 'm' :: 'a' :: 'g' :: 'e' :: 's' :: '/' :: AddImage.basename ip
                then some content else w.fs q)
      = (false, fun q => if q = 'i' :: 'm' :: 'a' :: 'g' :: 'e' :: 's' :: '/' :: AddImage.basename ip
                         then some content else w.fs q) := by
    simp [AddImage.add_image_to_html, hne, h4b]
  have hmain : AddImage.mainAdd w
      = (1, (fun q => if q = 'i' :: 'm' :: 'a' :: 'g' :: 'e' :: 's' :: '/' :: AddImage.basename ip
             then some content else w.fs q), none) := by
    simp [AddImage.mainAdd, h1, h2, h3, hadd]
  constructor
  · rw [hmain]
  · intro q
    rw [hmain, h2]
    rfl

/-- Witness for the missing-HTML scenario on the concrete world
`wMissingHtml`: exit code 1 and the copied asset present at
`images/photo.jpg`. -/
theorem patch_missing_html_witness :
    wMissingHtml.argv = "add_image.py".data :: "photo.jpg".data :: [] ∧
      wMissingHtml.fs "photo.jpg".data = some "IMGDATA".data ∧
      wMissingHtml.copyOk = true ∧
      wMissingHtml.fs "index.html".data = none ∧
      (AddImage.mainAdd wMissingHtml).1 = 1 ∧
      (AddImage.mainAdd wMissingHtml).2.1 "images/photo.jpg".data = some "IMGDATA".data :=
  ⟨rfl, by decide, rfl, by decide,
    (@patch_missing_html wMissingHtml "add_image.py".data "photo.jpg".data [] "IMGDATA".data
      rfl (by decide) rfl (by decide)).1,
    by
      rw [(@patch_missing_html wMissingHtml "add_image.py".data "photo.jpg".data [] "IMGDATA".data
        rfl (by decide) rfl (by decide)).2 "images/photo.jpg".data]
      decide⟩
